import Mathlib

/-!
Shallow embedding of the speed-test measurement engine of
`src/components/SpeedTest/SpeedTest.tsx` (the `Root` component): the
session state driven by `runTest`, the latency probe `runPingTest`, the
streamed download probe `runDownloadTest`, the simulated upload probe
`runUploadTest`, and the one-shot lookup `fetchNetworkInfo`.

JavaScript numbers are modelled as rationals (`ℚ`); the one place where
the code can produce `NaN` (coercing a non-numeric `Content-Length`
header) is modelled explicitly by the type `JsNum`.  Network
and timer non-determinism (probe outcomes, chunk sizes, elapsed times,
`Math.random()` draws) is supplied by an explicit environment record
`TestEnv`.  Each React `setXxx` state update of the source is one
`Action`; `runTest` is embedded as the exact sequence of actions it
performs, and the observable behaviour of a run is the list of session
states obtained by applying those actions in order.
-/

namespace SpeedTest

/-- Test phase, as in the source's union type
`'idle' | 'ping' | 'download' | 'upload' | 'complete'`. -/
inductive Phase where
  | idle
  | ping
  | download
  | upload
  | complete
deriving DecidableEq

/-- A JavaScript number that is either an actual (rational) value or `NaN`.
`NaN` arises in the source only from `+(header)` on a non-numeric
`Content-Length` header and then propagates through the progress formula. -/
inductive JsNum where
  | num (q : ℚ)
  | nan
deriving DecidableEq

/-- Session state held by the `Root` component: the `useState` fields that
the measurement engine reads and writes (`ipInfo` is handled separately by
`fetchNetworkInfo`, which `runTest` never touches). -/
structure Session where
  downloadSpeed : Option ℤ
  uploadSpeed : Option ℤ
  ping : Option ℤ
  jitter : Option ℤ
  isTesting : Bool
  progress : JsNum
  phase : Phase
  error : Option String
deriving DecidableEq

/-- Initial `useState` values of the `Root` component: all results `null`,
`isTesting` false, `progress` 0, `phase` `'idle'`, `error` `null`. -/
def initialSession : Session :=
  { downloadSpeed := none, uploadSpeed := none, ping := none, jitter := none,
    isTesting := false, progress := JsNum.num 0, phase := Phase.idle, error := none }

/-- One React state update performed by the measurement engine. -/
inductive Action where
  | setIsTesting (b : Bool)
  | setError (e : Option String)
  | setDownloadSpeed (v : Option ℤ)
  | setUploadSpeed (v : Option ℤ)
  | setPing (v : Option ℤ)
  | setJitter (v : Option ℤ)
  | setProgress (p : JsNum)
  | setPhase (ph : Phase)
deriving DecidableEq

/-- Effect of a single state update on the session. -/
def applyAction (s : Session) : Action → Session
  | Action.setIsTesting b => { s with isTesting := b }
  | Action.setError e => { s with error := e }
  | Action.setDownloadSpeed v => { s with downloadSpeed := v }
  | Action.setUploadSpeed v => { s with uploadSpeed := v }
  | Action.setPing v => { s with ping := v }
  | Action.setJitter v => { s with jitter := v }
  | Action.setProgress p => { s with progress := p }
  | Action.setPhase ph => { s with phase := ph }

/-- Apply a list of state updates in order. -/
def applyAll (s : Session) (acts : List Action) : Session :=
  acts.foldl applyAction s

/-- States reached after each update, in order (excluding the start state). -/
def statesAfter (s : Session) : List Action → List Session
  | [] => []
  | a :: as => applyAction s a :: statesAfter (applyAction s a) as

/-- JavaScript `Math.round`: round half toward positive infinity. -/
def jsRound (q : ℚ) : ℤ := ⌊q + 1 / 2⌋

/-- JavaScript `Math.min(...list)` over a spread, as used on the collected
ping samples.  The source only calls it under a `pings.length > 0` guard;
the empty case (which would be `Infinity` in JavaScript) is unreachable. -/
def mathMin : List ℚ → ℚ
  | [] => 0
  | p :: ps => ps.foldl min p

/-- Mean of a list of samples, `pings.reduce((a, b) => a + b, 0) / pings.length`. -/
def listMean (l : List ℚ) : ℚ := l.sum / l.length

/-- Mean absolute deviation from the mean,
`pings.reduce((a, b) => a + Math.abs(b - mean), 0) / pings.length`. -/
def meanAbsDev (l : List ℚ) : ℚ :=
  (l.map (fun x => |x - listMean l|)).sum / l.length

/-- Outcomes of the exactly five latency probe iterations of `runPingTest`:
`some t` means the `fetch` succeeded with elapsed wall-clock time `t`
milliseconds; `none` means the probe threw and contributed no sample. -/
def PingOutcomes : Type := Fin 5 → Option ℚ

/-- Latency samples actually collected: the successful probes, in order
(the loop pushes `end - start` only when the `fetch` did not throw). -/
def pingSamples (o : PingOutcomes) : List ℚ :=
  (List.ofFn o).filterMap id

/-- State updates performed by `runPingTest`: if at least one sample was
collected, set `ping` to `Math.round(Math.min(...pings))` and `jitter` to
the rounded mean absolute deviation; otherwise perform no update. -/
def runPingTestActions (o : PingOutcomes) : List Action :=
  if 0 < (pingSamples o).length then
    [Action.setPing (some (jsRound (mathMin (pingSamples o)))),
     Action.setJitter (some (jsRound (meanAbsDev (pingSamples o))))]
  else []

/-- Progress updates of the fallback/upload simulator: twenty 100ms ticks,
each adding 5 percentage points, `setProgress(5), ..., setProgress(100)`;
on reaching 100 the interval is cleared and the promise resolves. -/
def fallbackTicks : List Action :=
  (List.range 20).map (fun (i : ℕ) => Action.setProgress (JsNum.num (((i : ℚ) + 1) * 5)))

/-- Fallback simulator shared (inline, twice) by the download-failure path
and `runUploadTest`: ticks progress to 100 and resolves with
`Math.floor(Math.random() * (high - low + 1)) + low`, where `r` is the
`Math.random()` draw.  Returns the resolved value and the updates. -/
def fallbackSimulator (low high : ℤ) (r : ℚ) : ℤ × List Action :=
  (⌊r * ((high : ℚ) - (low : ℚ) + 1)⌋ + low, fallbackTicks)

/-- Value of the `Content-Length` response header as seen by
`+(response.headers.get('Content-Length') || '5000000')`:
absent (`get` returns `null`) or the empty string are falsy and take the
`'5000000'` default; a (finite-)numeric string coerces to its value; any
other string coerces to `NaN`. -/
inductive CLHeader where
  | absent
  | emptyStr
  | numStr (q : ℚ)
  | nonNumStr
deriving DecidableEq

/-- JavaScript coercion `+(header || '5000000')` producing the
`contentLength` used for progress. -/
def contentLengthOf : CLHeader → JsNum
  | CLHeader.absent => JsNum.num 5000000
  | CLHeader.emptyStr => JsNum.num 5000000
  | CLHeader.numStr q => JsNum.num q
  | CLHeader.nonNumStr => JsNum.nan

/-- Progress value `Math.min(100, (receivedLength / contentLength) * 100)`
with JavaScript semantics: a `NaN` content length gives `NaN`; a zero
content length gives `received / 0 = Infinity` (for positive `received`),
clamped to 100, and `0 / 0 = NaN`. -/
def jsProgress (received : ℕ) (cl : JsNum) : JsNum :=
  match cl with
  | JsNum.nan => JsNum.nan
  | JsNum.num q =>
    if q = 0 then (if received = 0 then JsNum.nan else JsNum.num 100)
    else JsNum.num (min 100 ((received : ℚ) / q * 100))

/-- Outcome of the download `fetch` and subsequent body stream, supplied by
the environment.  `fail` is a rejected `fetch` (caught, `simulated = true`);
`notOk` is a response with `ok` false; `ok header chunks streamFails` is a
successful response whose reader yields `chunks` (byte lengths) and then
either finishes (`streamFails = false`) or throws (`streamFails = true`).
A missing body reader (`throw new Error('No reader')`) is the case
`ok header [] true`: no chunk is read and the `catch` block runs. -/
inductive DlFetch where
  | fail
  | notOk
  | ok (header : CLHeader) (chunks : List ℕ) (streamFails : Bool)
deriving DecidableEq

/-- Progress updates of the download read loop: after each chunk,
`receivedLength += value.length` and
`setProgress(Math.min(100, (receivedLength / contentLength) * 100))`. -/
def dlChunkActions (cl : JsNum) (received : ℕ) : List ℕ → List Action
  | [] => []
  | c :: cs =>
    Action.setProgress (jsProgress (received + c) cl) ::
      dlChunkActions cl (received + c) cs

/-- Total `receivedLength` accumulated by the read loop. -/
def dlReceived (received : ℕ) : List ℕ → ℕ
  | [] => received
  | c :: cs => dlReceived (received + c) cs

/-- User-facing message set by the `catch` block of `runDownloadTest`. -/
def dlStreamErrorMsg : String := "Speed test failed. Please try again."

/-- Embedding of `runDownloadTest`: on an initial failure (rejected fetch or
non-ok response) delegate to the fallback simulator over [50, 150]; on a
successful response, emit a progress update per chunk and either (stream
failure) set the error message and return 0, or (completion) return
`Math.round(receivedLength * 8 / durationInSeconds / (1024 * 1024))` where
`durationInSeconds = (endTime - startTime) / 1000` and `elapsedMs` is the
wall-clock milliseconds since the function started.  Rational division
stands in for JavaScript division; at `elapsedMs = 0` JavaScript would give
`Infinity`, which is outside the hypotheses used about this definition. -/
def runDownloadTest (f : DlFetch) (elapsedMs r : ℚ) : ℤ × List Action :=
  match f with
  | DlFetch.fail => fallbackSimulator 50 150 r
  | DlFetch.notOk => fallbackSimulator 50 150 r
  | DlFetch.ok header chunks streamFails =>
    let cl := contentLengthOf header
    let acts := dlChunkActions cl 0 chunks
    if streamFails then
      (0, acts ++ [Action.setError (some dlStreamErrorMsg)])
    else
      (jsRound (((dlReceived 0 chunks : ℚ) * 8) / (elapsedMs / 1000) / (1024 * 1024)),
       acts)

/-- Embedding of `runUploadTest`: always the fallback simulator over
[10, 50] (`Math.floor(Math.random() * (50 - 10 + 1)) + 10`). -/
def runUploadTest (r : ℚ) : ℤ × List Action :=
  fallbackSimulator 10 50 r

/-- Environment of one `runTest` invocation: the five latency probe
outcomes, the download fetch/stream outcome, the wall-clock milliseconds
elapsed at the download speed computation, and the two `Math.random()`
draws (download fallback and upload). -/
structure TestEnv where
  pingOutcomes : PingOutcomes
  dlFetch : DlFetch
  dlElapsedMs : ℚ
  dlRandom : ℚ
  ulRandom : ℚ

/-- State updates performed by one invocation of `runTest`, in source
order: the initial reset block, `setPhase('ping')`, the ping updates,
`setPhase('download')`, `setProgress(0)`, the download updates and
`setDownloadSpeed`, `setPhase('upload')`, `setProgress(0)`, the upload
updates and `setUploadSpeed`, then `setPhase('complete')` and
`setIsTesting(false)`.  Each `await` boundary of the source separates
consecutive actions, so this list also fixes the order in which any
observer can see the session change. -/
def runTestActions (env : TestEnv) : List Action :=
  [Action.setIsTesting true, Action.setError none,
   Action.setDownloadSpeed none, Action.setUploadSpeed none,
   Action.setPing none, Action.setJitter none,
   Action.setProgress (JsNum.num 0), Action.setPhase Phase.ping] ++
  runPingTestActions env.pingOutcomes ++
  [Action.setPhase Phase.download, Action.setProgress (JsNum.num 0)] ++
  (runDownloadTest env.dlFetch env.dlElapsedMs env.dlRandom).2 ++
  [Action.setDownloadSpeed (some (runDownloadTest env.dlFetch env.dlElapsedMs env.dlRandom).1)] ++
  [Action.setPhase Phase.upload, Action.setProgress (JsNum.num 0)] ++
  (runUploadTest env.ulRandom).2 ++
  [Action.setUploadSpeed (some (runUploadTest env.ulRandom).1)] ++
  [Action.setPhase Phase.complete, Action.setIsTesting false]

/-- Session state at the end of a `runTest` invocation started in `s`. -/
def runTestFinal (s : Session) (env : TestEnv) : Session :=
  applyAll s (runTestActions env)

/-- All session states an observer can see during a `runTest` invocation
started in `s`: the start state followed by the state after each update. -/
def runTestTrace (s : Session) (env : TestEnv) : List Session :=
  s :: statesAfter s (runTestActions env)

/-- Reset block of `runTest` between `setIsTesting(true)` and
`setPhase('ping')`: clears error, results and progress. -/
def q1Acts : List Action :=
  [Action.setError none, Action.setDownloadSpeed none, Action.setUploadSpeed none,
   Action.setPing none, Action.setJitter none, Action.setProgress (JsNum.num 0)]

/-- Download-phase block of `runTest` between `setPhase('download')` and
`setPhase('upload')`: progress reset, download updates, result store. -/
def q3Acts (env : TestEnv) : List Action :=
  Action.setProgress (JsNum.num 0) ::
    ((runDownloadTest env.dlFetch env.dlElapsedMs env.dlRandom).2 ++
      [Action.setDownloadSpeed (some (runDownloadTest env.dlFetch env.dlElapsedMs env.dlRandom).1)])

/-- Upload-phase block of `runTest` between `setPhase('upload')` and
`setPhase('complete')`: progress reset, simulator ticks, result store. -/
def q4Acts (env : TestEnv) : List Action :=
  Action.setProgress (JsNum.num 0) ::
    (fallbackTicks ++ [Action.setUploadSpeed (some (runUploadTest env.ulRandom).1)])

/-- Ping stored for the run: set only when at least one sample was collected. -/
def pingResultOf (o : PingOutcomes) : Option ℤ :=
  if 0 < (pingSamples o).length then some (jsRound (mathMin (pingSamples o))) else none

/-- Jitter stored for the run: set only when at least one sample was collected. -/
def jitterResultOf (o : PingOutcomes) : Option ℤ :=
  if 0 < (pingSamples o).length then some (jsRound (meanAbsDev (pingSamples o))) else none

/-- Progress value left by the download read loop, folding `jsProgress`
over the chunks starting from progress `p0` and accumulated bytes `acc`. -/
def dlFinalProgress (cl : JsNum) (p0 : JsNum) (acc : ℕ) : List ℕ → JsNum
  | [] => p0
  | c :: cs => dlFinalProgress cl (jsProgress (acc + c) cl) (acc + c) cs

/-- Error field left by the download phase on a session whose error was `e0`:
only a mid-stream failure writes the user-facing message. -/
def dlErrorResult (f : DlFetch) (e0 : Option String) : Option String :=
  match f with
  | DlFetch.ok _ _ true => some dlStreamErrorMsg
  | _ => e0

/-- Progress value left by the download phase on a session whose progress was
`p0`: the fallback simulator ends at 100, a real stream folds `jsProgress`. -/
def dlProgressResult (f : DlFetch) (p0 : JsNum) : JsNum :=
  match f with
  | DlFetch.fail => JsNum.num 100
  | DlFetch.notOk => JsNum.num 100
  | DlFetch.ok header chunks _ => dlFinalProgress (contentLengthOf header) p0 0 chunks

/-- Actions that touch neither `phase` nor `isTesting`. -/
def quiet : Action → Bool
  | Action.setIsTesting _ => false
  | Action.setPhase _ => false
  | _ => true

/-- Phase and testing flag of a session, the components observed by the
phase-order and `isTesting` claims. -/
def phaseTesting (s : Session) : Phase × Bool := (s.phase, s.isTesting)

/-- Position of a phase in the linear order idle, ping, download, upload,
complete. -/
def phaseIdx : Phase → ℕ
  | Phase.idle => 0
  | Phase.ping => 1
  | Phase.download => 2
  | Phase.upload => 3
  | Phase.complete => 4

/-- Phase, ping, jitter, download and upload fields of a session, the
components observed by the result-nullability claim. -/
def resultsView (s : Session) : Phase × Option ℤ × Option ℤ × Option ℤ × Option ℤ :=
  (s.phase, s.ping, s.jitter, s.downloadSpeed, s.uploadSpeed)

/-- Actions that change none of the components of `resultsView`. -/
def rQuiet : Action → Bool
  | Action.setProgress _ => true
  | Action.setError _ => true
  | Action.setIsTesting _ => true
  | _ => false

/-- Nullability discipline of the result fields at one observed state:
each result field is null at states strictly before its phase and non-null
at states strictly after it (`ping`/`jitter` only when the run collected at
least one latency sample, expressed by the hypothesis `hasPing`). -/
def resultsOK (hasPing : Prop) (s : Session) : Prop :=
  (phaseIdx s.phase < 2 → s.downloadSpeed = none) ∧
  (2 < phaseIdx s.phase → s.downloadSpeed ≠ none) ∧
  (phaseIdx s.phase < 3 → s.uploadSpeed = none) ∧
  (3 < phaseIdx s.phase → s.uploadSpeed ≠ none) ∧
  (phaseIdx s.phase < 1 → s.ping = none ∧ s.jitter = none) ∧
  (hasPing → 1 < phaseIdx s.phase → s.ping ≠ none ∧ s.jitter ≠ none)

/-- List of phases with adjacent duplicates collapsed: the distinct phases
an observer sees, in order of first appearance of each run of equal values. -/
def collapse : List Phase → List Phase
  | [] => []
  | [a] => [a]
  | a :: b :: l => if a = b then collapse (b :: l) else a :: collapse (b :: l)

/-- Progress updates of the download read loop as the specification words
them (for comparison with `dlChunkActions`): after each chunk the progress
is `min(100, receivedBytes / contentLength * 100)` with a rational
`contentLength`. -/
def specProgressUpdates (contentLength : ℚ) (received : ℕ) : List ℕ → List Action
  | [] => []
  | c :: cs =>
    Action.setProgress (JsNum.num (min 100 (((received + c : ℕ) : ℚ) / contentLength * 100))) ::
      specProgressUpdates contentLength (received + c) cs

/-- Shape of the `ipwho.is` JSON the source reads: the nested
`connection` object (absent models both a missing and a `null` field,
either of which makes `data.connection.isp` throw). -/
structure IpConnection where
  isp : Option String
deriving DecidableEq

/-- Shape of the `ipwho.is` JSON the source reads: `success`, `ip`, the
top-level `isp` fallback and the nested `connection` object.  An `Option
String` field is `none` when absent; `some ""` is present but falsy. -/
structure IpResponse where
  success : Bool
  ip : String
  isp : Option String
  connection : Option IpConnection
deriving DecidableEq

/-- Stored network info `{ip, isp}`. -/
structure IpInfo where
  ip : String
  isp : String
deriving DecidableEq

/-- Outcome of the `fetch('https://ipwho.is/')` and `response.json()` pair:
`fail` covers a rejected fetch or a body that fails to parse. -/
inductive NetFetch where
  | fail
  | ok (data : IpResponse)
deriving DecidableEq

/-- JavaScript truthiness chain `a || b` on an optional string: an absent
(`undefined`) or empty string falls through to `b`. -/
def jsOrStr (a : Option String) (b : String) : String :=
  match a with
  | none => b
  | some s => if s = "" then b else s

/-- Embedding of `fetchNetworkInfo`, as the `ipInfo` value stored starting
from the initial `null`: on failure nothing is stored; on `success` the
source evaluates `data.connection.isp || data.isp || 'Unknown ISP'`, which
throws (and is caught, storing nothing) when `connection` is absent. -/
def fetchNetworkInfo : NetFetch → Option IpInfo
  | NetFetch.fail => none
  | NetFetch.ok d =>
    if d.success then
      match d.connection with
      | none => none
      | some c => some { ip := d.ip, isp := jsOrStr c.isp (jsOrStr d.isp "Unknown ISP") }
    else none

/-- Response of the network-info service with a present connection object. -/
def ipExample : IpResponse :=
  { success := true, ip := "203.0.113.5", isp := some "TopISP",
    connection := some { isp := some "ConnISP" } }

/-- Response of the network-info service that is successful and well-formed
for the documented shape (connection is optional there) but has no
connection object. -/
def ipNoConnection : IpResponse :=
  { success := true, ip := "1.2.3.4", isp := some "Acme", connection := none }

/-- Environment in which the latency samples are the worked example
`[40, 42, 38, 41, 200]` of the specification (download fails initially,
both random draws and the elapsed time are arbitrary concrete values). -/
def envPingExample : TestEnv :=
  { pingOutcomes := ![some 40, some 42, some 38, some 41, some 200],
    dlFetch := DlFetch.fail, dlElapsedMs := 4000, dlRandom := 1 / 2, ulRandom := 0 }

/-- Environment in which all five latency probes fail and the download
request fails initially. -/
def envAllFail : TestEnv :=
  { pingOutcomes := fun _ => none,
    dlFetch := DlFetch.fail, dlElapsedMs := 1000, dlRandom := 0, ulRandom := 0 }

/-- Environment in which the download response succeeds but the body stream
throws after two chunks. -/
def envStreamFail : TestEnv :=
  { pingOutcomes := fun _ => none,
    dlFetch := DlFetch.ok CLHeader.absent [1000000, 2000000] true,
    dlElapsedMs := 1000, dlRandom := 0, ulRandom := 0 }

/-- Environment in which the download stream completes: 10,000,000 bytes in
4.0 seconds, the worked example of the specification. -/
def envDlOk : TestEnv :=
  { pingOutcomes := fun _ => none,
    dlFetch := DlFetch.ok CLHeader.absent [4000000, 6000000] false,
    dlElapsedMs := 4000, dlRandom := 0, ulRandom := 0 }

theorem applyAll_nil (s : Session) : applyAll s [] = s := rfl

theorem applyAll_cons (s : Session) (a : Action) (l : List Action) :
    applyAll s (a :: l) = applyAll (applyAction s a) l := rfl

theorem applyAll_append (s : Session) (l₁ l₂ : List Action) :
    applyAll s (l₁ ++ l₂) = applyAll (applyAll s l₁) l₂ :=
  List.foldl_append applyAction s l₁ l₂

theorem statesAfter_nil (s : Session) : statesAfter s [] = [] := rfl

theorem statesAfter_cons (s : Session) (a : Action) (l : List Action) :
    statesAfter s (a :: l) = applyAction s a :: statesAfter (applyAction s a) l := rfl

theorem statesAfter_append (s : Session) (l₁ l₂ : List Action) :
    statesAfter s (l₁ ++ l₂) = statesAfter s l₁ ++ statesAfter (applyAll s l₁) l₂ := by
  induction l₁ generalizing s with
  | nil => rfl
  | cons a l ih => simp [statesAfter_cons, applyAll_cons, ih]

theorem length_statesAfter (s : Session) (l : List Action) :
    (statesAfter s l).length = l.length := by
  induction l generalizing s with
  | nil => rfl
  | cons a l ih => simp [statesAfter_cons, ih]

theorem applyAll_pingActs (s : Session) (o : PingOutcomes) :
    applyAll s (runPingTestActions o) =
      if 0 < (pingSamples o).length then
        { s with ping := some (jsRound (mathMin (pingSamples o))),
                 jitter := some (jsRound (meanAbsDev (pingSamples o))) }
      else s := by
  unfold runPingTestActions
  split <;> rfl

theorem applyAll_progressMap (g : ℕ → JsNum) (l : List ℕ) (hl : l ≠ []) :
    ∀ s : Session,
      applyAll s (l.map (fun i => Action.setProgress (g i))) =
        { s with progress := g (l.getLast hl) } := by
  induction l with
  | nil => exact absurd rfl hl
  | cons c cs ih =>
    intro s
    cases cs with
    | nil => rfl
    | cons d ds =>
      rw [List.map_cons, applyAll_cons, ih (by simp)]
      rfl

theorem applyAll_ticks (s : Session) :
    applyAll s fallbackTicks = { s with progress := JsNum.num 100 } := by
  unfold fallbackTicks
  rw [applyAll_progressMap _ _ (by decide) s]
  have h : (List.range 20).getLast (by decide) = 19 := by decide
  rw [h]
  norm_num

theorem applyAll_chunkActs (cl : JsNum) (cs : List ℕ) :
    ∀ (acc : ℕ) (s : Session),
      applyAll s (dlChunkActions cl acc cs) =
        { s with progress := dlFinalProgress cl s.progress acc cs } := by
  induction cs with
  | nil => intro acc s; rfl
  | cons c cs ih =>
    intro acc s
    rw [dlChunkActions, applyAll_cons, ih]
    rfl

theorem applyAll_dlActs (f : DlFetch) (e r : ℚ) (s : Session) :
    applyAll s (runDownloadTest f e r).2 =
      { s with progress := dlProgressResult f s.progress,
               error := dlErrorResult f s.error } := by
  cases f with
  | fail => exact applyAll_ticks s
  | notOk => exact applyAll_ticks s
  | ok header chunks streamFails =>
    cases streamFails with
    | false =>
      show applyAll s (dlChunkActions (contentLengthOf header) 0 chunks) = _
      rw [applyAll_chunkActs]
      rfl
    | true =>
      show applyAll s (dlChunkActions (contentLengthOf header) 0 chunks ++
        [Action.setError (some dlStreamErrorMsg)]) = _
      rw [applyAll_append, applyAll_chunkActs]
      rfl

theorem runTestFinal_eq (s0 : Session) (env : TestEnv) :
    runTestFinal s0 env =
      { downloadSpeed := some (runDownloadTest env.dlFetch env.dlElapsedMs env.dlRandom).1,
        uploadSpeed := some (runUploadTest env.ulRandom).1,
        ping := pingResultOf env.pingOutcomes,
        jitter := jitterResultOf env.pingOutcomes,
        isTesting := false,
        progress := JsNum.num 100,
        phase := Phase.complete,
        error := dlErrorResult env.dlFetch none } := by
  unfold runTestFinal runTestActions
  simp only [applyAll_append, applyAll_cons, applyAll_nil, applyAction]
  rw [applyAll_pingActs]
  unfold pingResultOf jitterResultOf
  split
  all_goals
    rw [applyAll_dlActs]
    simp only [runUploadTest, fallbackSimulator, applyAll_cons, applyAll_nil, applyAction]
    rw [applyAll_ticks]

theorem runTestActions_decomp (env : TestEnv) :
    runTestActions env =
      Action.setIsTesting true ::
        (q1Acts ++
          (Action.setPhase Phase.ping ::
            (runPingTestActions env.pingOutcomes ++
              (Action.setPhase Phase.download ::
                (q3Acts env ++
                  (Action.setPhase Phase.upload ::
                    (q4Acts env ++
                      [Action.setPhase Phase.complete, Action.setIsTesting false]))))))) := by
  simp [runTestActions, q1Acts, q3Acts, q4Acts, runUploadTest, fallbackSimulator]

theorem phaseTesting_applyAction (s : Session) (a : Action) (h : quiet a = true) :
    phaseTesting (applyAction s a) = phaseTesting s := by
  cases a <;> simp [quiet] at h <;> rfl

theorem phaseTesting_applyAll (l : List Action) (h : ∀ a ∈ l, quiet a = true) :
    ∀ s : Session, phaseTesting (applyAll s l) = phaseTesting s := by
  induction l with
  | nil => intro s; rfl
  | cons a as ih =>
    intro s
    rw [applyAll_cons, ih (fun b hb => h b (List.mem_cons_of_mem a hb)),
      phaseTesting_applyAction s a (h a (List.mem_cons_self a as))]

theorem map_phaseTesting_statesAfter (l : List Action) (h : ∀ a ∈ l, quiet a = true) :
    ∀ s : Session,
      (statesAfter s l).map phaseTesting = List.replicate l.length (phaseTesting s) := by
  induction l with
  | nil => intro s; rfl
  | cons a as ih =>
    intro s
    rw [statesAfter_cons, List.map_cons, List.length_cons, List.replicate_succ,
      ih (fun b hb => h b (List.mem_cons_of_mem a hb)),
      phaseTesting_applyAction s a (h a (List.mem_cons_self a as))]

theorem quiet_q1 : ∀ a ∈ q1Acts, quiet a = true := by decide

theorem quiet_pingActs (o : PingOutcomes) : ∀ a ∈ runPingTestActions o, quiet a = true := by
  intro a ha
  unfold runPingTestActions at ha
  split at ha
  · rcases List.mem_cons.mp ha with rfl | ha2
    · rfl
    · rcases List.mem_cons.mp ha2 with rfl | ha3
      · rfl
      · cases ha3
  · cases ha

theorem mem_dlChunkActions (cl : JsNum) :
    ∀ (cs : List ℕ) (acc : ℕ) (a : Action),
      a ∈ dlChunkActions cl acc cs → ∃ p, a = Action.setProgress p := by
  intro cs
  induction cs with
  | nil => intro acc a h; cases h
  | cons c cs ih =>
    intro acc a h
    rw [dlChunkActions] at h
    rcases List.mem_cons.mp h with rfl | h2
    · exact ⟨_, rfl⟩
    · exact ih _ a h2

theorem mem_fallbackTicks (a : Action) (h : a ∈ fallbackTicks) :
    ∃ p, a = Action.setProgress p := by
  unfold fallbackTicks at h
  rcases List.mem_map.mp h with ⟨i, _, rfl⟩
  exact ⟨_, rfl⟩

theorem quiet_dlActs (f : DlFetch) (e r : ℚ) :
    ∀ a ∈ (runDownloadTest f e r).2, quiet a = true := by
  intro a ha
  cases f with
  | fail => rcases mem_fallbackTicks a ha with ⟨p, rfl⟩; rfl
  | notOk => rcases mem_fallbackTicks a ha with ⟨p, rfl⟩; rfl
  | ok header chunks streamFails =>
    cases streamFails with
    | false =>
      rcases mem_dlChunkActions (contentLengthOf header) chunks 0 a ha with ⟨p, rfl⟩
      rfl
    | true =>
      rcases List.mem_append.mp ha with h | h
      · rcases mem_dlChunkActions (contentLengthOf header) chunks 0 a h with ⟨p, rfl⟩
        rfl
      · rcases List.mem_cons.mp h with rfl | h2
        · rfl
        · cases h2

theorem quiet_q3 (env : TestEnv) : ∀ a ∈ q3Acts env, quiet a = true := by
  intro a ha
  unfold q3Acts at ha
  rcases List.mem_cons.mp ha with rfl | ha2
  · rfl
  · rcases List.mem_append.mp ha2 with h | h
    · exact quiet_dlActs _ _ _ a h
    · rcases List.mem_cons.mp h with rfl | h2
      · rfl
      · cases h2

theorem quiet_q4 (env : TestEnv) : ∀ a ∈ q4Acts env, quiet a = true := by
  intro a ha
  unfold q4Acts at ha
  rcases List.mem_cons.mp ha with rfl | ha2
  · rfl
  · rcases List.mem_append.mp ha2 with h | h
    · rcases mem_fallbackTicks a h with ⟨p, rfl⟩; rfl
    · rcases List.mem_cons.mp h with rfl | h2
      · rfl
      · cases h2

theorem map_pt_block (s : Session) (p0 : Phase) (b0 : Bool)
    (hpt : phaseTesting s = (p0, b0)) (q : List Action)
    (hq : ∀ a ∈ q, quiet a = true) (ph : Phase) (rest : List Action) :
    (statesAfter s (q ++ (Action.setPhase ph :: rest))).map phaseTesting =
      List.replicate q.length (p0, b0) ++
        ((ph, b0) ::
          (statesAfter (applyAction (applyAll s q) (Action.setPhase ph)) rest).map phaseTesting) ∧
    phaseTesting (applyAction (applyAll s q) (Action.setPhase ph)) = (ph, b0) := by
  have hAll : phaseTesting (applyAll s q) = (p0, b0) :=
    (phaseTesting_applyAll q hq s).trans hpt
  have hsnd : (applyAll s q).isTesting = b0 := congrArg Prod.snd hAll
  have h2 : phaseTesting (applyAction (applyAll s q) (Action.setPhase ph)) = (ph, b0) := by
    show (ph, (applyAll s q).isTesting) = (ph, b0)
    rw [hsnd]
  refine ⟨?_, h2⟩
  rw [statesAfter_append, List.map_append, map_phaseTesting_statesAfter q hq s, hpt,
    statesAfter_cons, List.map_cons, h2]

theorem runTestTrace_pairs (s0 : Session) (env : TestEnv) :
    (runTestTrace s0 env).map phaseTesting =
      (s0.phase, s0.isTesting) :: (s0.phase, true) ::
        (List.replicate 6 (s0.phase, true) ++
          ((Phase.ping, true) ::
            (List.replicate (runPingTestActions env.pingOutcomes).length (Phase.ping, true) ++
              ((Phase.download, true) ::
                (List.replicate (q3Acts env).length (Phase.download, true) ++
                  ((Phase.upload, true) ::
                    (List.replicate (q4Acts env).length (Phase.upload, true) ++
                      [(Phase.complete, true), (Phase.complete, false)]))))))) := by
  rw [runTestTrace, runTestActions_decomp, List.map_cons, statesAfter_cons, List.map_cons]
  obtain ⟨e1, h1⟩ :=
    map_pt_block (applyAction s0 (Action.setIsTesting true)) s0.phase true rfl
      q1Acts quiet_q1 Phase.ping _
  rw [e1]
  obtain ⟨e2, h2⟩ :=
    map_pt_block _ Phase.ping true h1 (runPingTestActions env.pingOutcomes)
      (quiet_pingActs env.pingOutcomes) Phase.download _
  rw [e2]
  obtain ⟨e3, h3⟩ :=
    map_pt_block _ Phase.download true h2 (q3Acts env) (quiet_q3 env) Phase.upload _
  rw [e3]
  obtain ⟨e4, h4⟩ :=
    map_pt_block _ Phase.upload true h3 (q4Acts env) (quiet_q4 env) Phase.complete _
  rw [e4]
  rfl

theorem collapse_cons_self (a : Phase) (l : List Phase) :
    collapse (a :: a :: l) = collapse (a :: l) := by
  simp [collapse]

theorem collapse_cons_ne (a b : Phase) (h : a ≠ b) (l : List Phase) :
    collapse (a :: b :: l) = a :: collapse (b :: l) := by
  simp [collapse, h]

theorem collapse_cons_replicate (a : Phase) :
    ∀ (n : ℕ) (l : List Phase),
      collapse (a :: (List.replicate n a ++ l)) = collapse (a :: l) := by
  intro n
  induction n with
  | zero => intro l; rfl
  | succ n ih => intro l; rw [List.replicate_succ, List.cons_append, collapse_cons_self, ih]

theorem runTestTrace_phases (s0 : Session) (env : TestEnv) :
    (runTestTrace s0 env).map (fun s => s.phase) =
      s0.phase :: s0.phase ::
        (List.replicate 6 s0.phase ++
          (Phase.ping ::
            (List.replicate (runPingTestActions env.pingOutcomes).length Phase.ping ++
              (Phase.download ::
                (List.replicate (q3Acts env).length Phase.download ++
                  (Phase.upload ::
                    (List.replicate (q4Acts env).length Phase.upload ++
                      [Phase.complete, Phase.complete]))))))) := by
  have h := congrArg (List.map Prod.fst) (runTestTrace_pairs s0 env)
  rw [List.map_map] at h
  have h0 : (runTestTrace s0 env).map (fun s => s.phase) =
      (runTestTrace s0 env).map (Prod.fst ∘ phaseTesting) := rfl
  rw [h0, h]
  simp

theorem collapse_run_shape (p : Phase) (hp : p ≠ Phase.ping) (n1 n2 n3 : ℕ) :
    collapse (p :: p ::
        (List.replicate 6 p ++
          (Phase.ping ::
            (List.replicate n1 Phase.ping ++
              (Phase.download ::
                (List.replicate n2 Phase.download ++
                  (Phase.upload ::
                    (List.replicate n3 Phase.upload ++
                      [Phase.complete, Phase.complete])))))))) =
      [p, Phase.ping, Phase.download, Phase.upload, Phase.complete] := by
  rw [collapse_cons_self, collapse_cons_replicate, collapse_cons_ne _ _ hp,
    collapse_cons_replicate, collapse_cons_ne _ _ (by decide),
    collapse_cons_replicate, collapse_cons_ne _ _ (by decide),
    collapse_cons_replicate, collapse_cons_ne _ _ (by decide), collapse_cons_self]
  rfl

theorem dlReceived_eq (cs : List ℕ) : ∀ acc : ℕ, dlReceived acc cs = acc + cs.sum := by
  induction cs with
  | nil => intro acc; simp [dlReceived]
  | cons c cs ih => intro acc; rw [dlReceived, ih, List.sum_cons]; omega

theorem fallback_mem_range (low high : ℤ) (r : ℚ) (hlh : low ≤ high)
    (h0 : 0 ≤ r) (h1 : r < 1) :
    low ≤ (fallbackSimulator low high r).1 ∧ (fallbackSimulator low high r).1 ≤ high := by
  unfold fallbackSimulator
  have hd : (0 : ℚ) < (high : ℚ) - (low : ℚ) + 1 := by
    have hc : (low : ℚ) ≤ (high : ℚ) := by exact_mod_cast hlh
    linarith
  constructor
  · have h2 : (0 : ℤ) ≤ ⌊r * ((high : ℚ) - (low : ℚ) + 1)⌋ :=
      Int.floor_nonneg.mpr (mul_nonneg h0 (le_of_lt hd))
    omega
  · have h3 : ⌊r * ((high : ℚ) - (low : ℚ) + 1)⌋ < high - low + 1 := by
      rw [Int.floor_lt]
      push_cast
      have := mul_lt_mul_of_pos_right h1 hd
      linarith
    omega

theorem fallback_eq_iff (low high k : ℤ) (r : ℚ) (hlh : low ≤ high) :
    (fallbackSimulator low high r).1 = k ↔
      ((k : ℚ) - (low : ℚ)) / ((high : ℚ) - (low : ℚ) + 1) ≤ r ∧
        r < ((k : ℚ) - (low : ℚ) + 1) / ((high : ℚ) - (low : ℚ) + 1) := by
  unfold fallbackSimulator
  have hd : (0 : ℚ) < (high : ℚ) - (low : ℚ) + 1 := by
    have hc : (low : ℚ) ≤ (high : ℚ) := by exact_mod_cast hlh
    linarith
  have h1 : (⌊r * ((high : ℚ) - (low : ℚ) + 1)⌋ + low = k) ↔
      ⌊r * ((high : ℚ) - (low : ℚ) + 1)⌋ = k - low := by omega
  rw [h1, Int.floor_eq_iff, div_le_iff₀ hd, lt_div_iff₀ hd]
  push_cast
  constructor
  · intro h; exact ⟨by linarith [h.1], by linarith [h.2]⟩
  · intro h; exact ⟨by linarith [h.1], by linarith [h.2]⟩

theorem resultsView_applyAction (s : Session) (a : Action) (h : rQuiet a = true) :
    resultsView (applyAction s a) = resultsView s := by
  cases a <;> simp [rQuiet] at h <;> rfl

theorem resultsView_applyAll (l : List Action) (h : ∀ a ∈ l, rQuiet a = true) :
    ∀ s : Session, resultsView (applyAll s l) = resultsView s := by
  induction l with
  | nil => intro s; rfl
  | cons a as ih =>
    intro s
    rw [applyAll_cons, ih (fun b hb => h b (List.mem_cons_of_mem a hb)),
      resultsView_applyAction s a (h a (List.mem_cons_self a as))]

theorem resultsView_statesAfter (l : List Action) (h : ∀ a ∈ l, rQuiet a = true) :
    ∀ s : Session, ∀ t ∈ statesAfter s l, resultsView t = resultsView s := by
  induction l with
  | nil => intro s t ht; cases ht
  | cons a as ih =>
    intro s t ht
    rcases List.mem_cons.mp ht with rfl | ht2
    · exact resultsView_applyAction s a (h a (List.mem_cons_self a as))
    · exact (ih (fun b hb => h b (List.mem_cons_of_mem a hb)) _ t ht2).trans
        (resultsView_applyAction s a (h a (List.mem_cons_self a as)))

theorem resultsOK_of_view (hp : Prop) (t u : Session)
    (hv : resultsView t = resultsView u) (hu : resultsOK hp u) : resultsOK hp t := by
  have h1 : t.phase = u.phase := congrArg (fun x => x.1) hv
  have h2 : t.ping = u.ping := congrArg (fun x => x.2.1) hv
  have h3 : t.jitter = u.jitter := congrArg (fun x => x.2.2.1) hv
  have h4 : t.downloadSpeed = u.downloadSpeed := congrArg (fun x => x.2.2.2.1) hv
  have h5 : t.uploadSpeed = u.uploadSpeed := congrArg (fun x => x.2.2.2.2) hv
  unfold resultsOK at hu ⊢
  rw [h1, h2, h3, h4, h5]
  exact hu

theorem rQuiet_dlActs (f : DlFetch) (e r : ℚ) :
    ∀ a ∈ (runDownloadTest f e r).2, rQuiet a = true := by
  intro a ha
  cases f with
  | fail => rcases mem_fallbackTicks a ha with ⟨p, rfl⟩; rfl
  | notOk => rcases mem_fallbackTicks a ha with ⟨p, rfl⟩; rfl
  | ok header chunks streamFails =>
    cases streamFails with
    | false =>
      rcases mem_dlChunkActions (contentLengthOf header) chunks 0 a ha with ⟨p, rfl⟩
      rfl
    | true =>
      rcases List.mem_append.mp ha with h | h
      · rcases mem_dlChunkActions (contentLengthOf header) chunks 0 a h with ⟨p, rfl⟩
        rfl
      · rcases List.mem_cons.mp h with rfl | h2
        · rfl
        · cases h2

theorem rQuiet_ticks : ∀ a ∈ fallbackTicks, rQuiet a = true := by
  intro a ha
  rcases mem_fallbackTicks a ha with ⟨p, rfl⟩
  rfl

theorem pingSamples_example :
    pingSamples envPingExample.pingOutcomes = [40, 42, 38, 41, 200] := by
  simp [pingSamples, envPingExample]

theorem pingSamples_allFail : pingSamples envAllFail.pingOutcomes = [] := by
  simp [pingSamples, envAllFail]

theorem jsRound_example_min : jsRound (mathMin [40, 42, 38, 41, 200]) = 38 := by
  norm_num [mathMin, min_def, jsRound]

theorem jsRound_example_mad : jsRound (meanAbsDev [40, 42, 38, 41, 200]) = 51 := by
  norm_num [meanAbsDev, listMean, jsRound, abs]

/-- C1 (amended): for every run of the ping phase in which at least one
latency sample is collected, the stored ping is `round(min(samples))` and
the stored jitter is `round` of the mean absolute deviation of the
samples; with zero samples both stay null.  For the samples
`[40, 42, 38, 41, 200]` this gives ping = 38 and jitter = 51 (the
specification's example value 56 is wrong; see the counterexample). -/
theorem C1_ping_jitter (s0 : Session) (env : TestEnv) :
    (0 < (pingSamples env.pingOutcomes).length →
      (runTestFinal s0 env).ping = some (jsRound (mathMin (pingSamples env.pingOutcomes))) ∧
        (runTestFinal s0 env).jitter =
          some (jsRound (meanAbsDev (pingSamples env.pingOutcomes)))) ∧
    ((pingSamples env.pingOutcomes).length = 0 →
      (runTestFinal s0 env).ping = none ∧ (runTestFinal s0 env).jitter = none) ∧
    (runTestFinal s0 envPingExample).ping = some 38 ∧
    (runTestFinal s0 envPingExample).jitter = some 51 := by
  refine ⟨?_, ?_, ?_, ?_⟩
  · intro h
    simp only [runTestFinal_eq, pingResultOf, jitterResultOf]
    rw [if_pos h, if_pos h]
    exact ⟨rfl, rfl⟩
  · intro h
    simp only [runTestFinal_eq, pingResultOf, jitterResultOf]
    rw [if_neg (by omega), if_neg (by omega)]
    exact ⟨rfl, rfl⟩
  · simp only [runTestFinal_eq, pingResultOf]
    rw [pingSamples_example, if_pos (by norm_num), jsRound_example_min]
  · simp only [runTestFinal_eq, jitterResultOf]
    rw [pingSamples_example, if_pos (by norm_num), jsRound_example_mad]

/-- Witness for C1 at the worked-example environment. -/
theorem C1_ping_jitter_witness :
    0 < (pingSamples envPingExample.pingOutcomes).length ∧
    ((runTestFinal initialSession envPingExample).ping =
        some (jsRound (mathMin (pingSamples envPingExample.pingOutcomes))) ∧
      (runTestFinal initialSession envPingExample).jitter =
        some (jsRound (meanAbsDev (pingSamples envPingExample.pingOutcomes)))) :=
  ⟨by rw [pingSamples_example]; norm_num,
   (C1_ping_jitter initialSession envPingExample).1 (by rw [pingSamples_example]; norm_num)⟩

/-- Counterexample to C1 as stated: on the claim's own samples
`[40, 42, 38, 41, 200]` the stored jitter is 51, not 56 (the mean absolute
deviation is 51.12, and 56 matches no quantity the code computes). -/
theorem C1_example_counterexample :
    (runTestFinal initialSession envPingExample).jitter = some 51 ∧
    (runTestFinal initialSession envPingExample).jitter ≠ some 56 := by
  have hj : (runTestFinal initialSession envPingExample).jitter = some 51 :=
    (C1_ping_jitter initialSession envPingExample).2.2.2
  exact ⟨hj, by rw [hj]; decide⟩

/-- C2 (amended): an invocation of `runTest` on a session whose phase is
idle (in particular the initial session) drives the phase through exactly
idle, ping, download, upload, complete, in that order, never skipping and
never repeating a phase, and each phase's updates are sequenced strictly
after the previous phase's awaited updates.  (An invocation on a completed
session starts from complete instead of idle; see the counterexample.) -/
theorem C2_phase_sequence (s0 : Session) (env : TestEnv) (h : s0.phase = Phase.idle) :
    collapse ((runTestTrace s0 env).map (fun s => s.phase)) =
      [Phase.idle, Phase.ping, Phase.download, Phase.upload, Phase.complete] := by
  rw [runTestTrace_phases, h]
  exact collapse_run_shape Phase.idle (by decide) _ _ _

/-- Witness for C2 at the initial session. -/
theorem C2_phase_sequence_witness :
    initialSession.phase = Phase.idle ∧
    collapse ((runTestTrace initialSession envAllFail).map (fun s => s.phase)) =
      [Phase.idle, Phase.ping, Phase.download, Phase.upload, Phase.complete] :=
  ⟨rfl, C2_phase_sequence initialSession envAllFail rfl⟩

/-- Counterexample to C2 as stated: invoking `runTest` again, from the
completed session a first run leaves behind, visits the phases complete,
ping, download, upload, complete — not a sequence beginning with idle, and
with the complete phase repeated within the run. -/
theorem C2_reinvocation_counterexample :
    collapse ((runTestTrace (runTestFinal initialSession envAllFail) envAllFail).map
        (fun s => s.phase)) =
      [Phase.complete, Phase.ping, Phase.download, Phase.upload, Phase.complete] ∧
    [Phase.complete, Phase.ping, Phase.download, Phase.upload, Phase.complete] ≠
      [Phase.idle, Phase.ping, Phase.download, Phase.upload, Phase.complete] := by
  constructor
  · have hp : (runTestFinal initialSession envAllFail).phase = Phase.complete := by
      rw [runTestFinal_eq]
    rw [runTestTrace_phases, hp]
    exact collapse_run_shape Phase.complete (by decide) _ _ _
  · decide

/-- C3: if the download stream throws after a successful response, the run
records the user-facing error message, stores a download result of 0 (no
fallback to simulation), still reaches the complete phase, and stores an
upload result in [10, 50]. -/
theorem C3_midstream_failure (s0 : Session) (env : TestEnv) (header : CLHeader)
    (chunks : List ℕ) (hf : env.dlFetch = DlFetch.ok header chunks true)
    (h0 : 0 ≤ env.ulRandom) (h1 : env.ulRandom < 1) :
    (runTestFinal s0 env).error = some dlStreamErrorMsg ∧
    (runTestFinal s0 env).downloadSpeed = some 0 ∧
    (runTestFinal s0 env).phase = Phase.complete ∧
    ∃ m : ℤ, (runTestFinal s0 env).uploadSpeed = some m ∧ 10 ≤ m ∧ m ≤ 50 := by
  rw [runTestFinal_eq, hf]
  obtain ⟨hl, hh⟩ := fallback_mem_range 10 50 env.ulRandom (by norm_num) h0 h1
  exact ⟨rfl, rfl, rfl, _, rfl, hl, hh⟩

/-- Witness for C3 in the mid-stream failure environment. -/
theorem C3_midstream_failure_witness :
    (runTestFinal initialSession envStreamFail).error = some dlStreamErrorMsg ∧
    (runTestFinal initialSession envStreamFail).downloadSpeed = some 0 ∧
    (runTestFinal initialSession envStreamFail).phase = Phase.complete ∧
    ∃ m : ℤ, (runTestFinal initialSession envStreamFail).uploadSpeed = some m ∧
      10 ≤ m ∧ m ≤ 50 :=
  C3_midstream_failure initialSession envStreamFail CLHeader.absent
    [1000000, 2000000] rfl (by norm_num [envStreamFail]) (by norm_num [envStreamFail])

/-- C4: when the initial download request fails (rejected fetch or non-ok
response) the final download result is the fallback value, an integer
uniformly distributed in [50, 150] (each value is hit exactly on a
`Math.random()` subinterval of length 1/101); the final upload result is
an integer in [10, 50] for every environment. -/
theorem C4_fallback_ranges (s0 : Session) (env : TestEnv) :
    ((env.dlFetch = DlFetch.fail ∨ env.dlFetch = DlFetch.notOk) →
      0 ≤ env.dlRandom → env.dlRandom < 1 →
      ((runTestFinal s0 env).downloadSpeed = some (fallbackSimulator 50 150 env.dlRandom).1 ∧
        50 ≤ (fallbackSimulator 50 150 env.dlRandom).1 ∧
        (fallbackSimulator 50 150 env.dlRandom).1 ≤ 150 ∧
        ∀ k : ℤ, (fallbackSimulator 50 150 env.dlRandom).1 = k ↔
          ((k : ℚ) - 50) / 101 ≤ env.dlRandom ∧ env.dlRandom < ((k : ℚ) - 50 + 1) / 101)) ∧
    (0 ≤ env.ulRandom → env.ulRandom < 1 →
      ∃ m : ℤ, (runTestFinal s0 env).uploadSpeed = some m ∧ 10 ≤ m ∧ m ≤ 50) := by
  constructor
  · intro hdl h0 h1
    obtain ⟨hl, hh⟩ := fallback_mem_range 50 150 env.dlRandom (by norm_num) h0 h1
    have hiff : ∀ k : ℤ, (fallbackSimulator 50 150 env.dlRandom).1 = k ↔
        ((k : ℚ) - 50) / 101 ≤ env.dlRandom ∧ env.dlRandom < ((k : ℚ) - 50 + 1) / 101 := by
      intro k
      have h := fallback_eq_iff 50 150 k env.dlRandom (by norm_num)
      norm_num at h
      norm_num [h]
    refine ⟨?_, hl, hh, hiff⟩
    rcases hdl with h | h <;> simp only [runTestFinal_eq, h] <;> rfl
  · intro h0 h1
    obtain ⟨hl, hh⟩ := fallback_mem_range 10 50 env.ulRandom (by norm_num) h0 h1
    simp only [runTestFinal_eq]
    exact ⟨_, rfl, hl, hh⟩

/-- Witness for C4 in the failing-download environment. -/
theorem C4_fallback_ranges_witness :
    ((runTestFinal initialSession envAllFail).downloadSpeed =
        some (fallbackSimulator 50 150 envAllFail.dlRandom).1 ∧
      50 ≤ (fallbackSimulator 50 150 envAllFail.dlRandom).1 ∧
      (fallbackSimulator 50 150 envAllFail.dlRandom).1 ≤ 150 ∧
      ∀ k : ℤ, (fallbackSimulator 50 150 envAllFail.dlRandom).1 = k ↔
        ((k : ℚ) - 50) / 101 ≤ envAllFail.dlRandom ∧
          envAllFail.dlRandom < ((k : ℚ) - 50 + 1) / 101) ∧
    (∃ m : ℤ, (runTestFinal initialSession envAllFail).uploadSpeed = some m ∧
      10 ≤ m ∧ m ≤ 50) :=
  ⟨(C4_fallback_ranges initialSession envAllFail).1 (Or.inl rfl)
      (by norm_num [envAllFail]) (by norm_num [envAllFail]),
   (C4_fallback_ranges initialSession envAllFail).2
      (by norm_num [envAllFail]) (by norm_num [envAllFail])⟩

/-- C5: on a download stream that completes, the stored throughput is
`round(receivedBytes * 8 / elapsedSeconds / 1048576)` where
`receivedBytes` is the sum of the chunk sizes and `elapsedSeconds` the
wall-clock seconds since the download phase started; for 10,000,000 bytes
in 4.0 seconds the result is 19. -/
theorem C5_download_throughput (s0 : Session) (env : TestEnv) (header : CLHeader)
    (chunks : List ℕ) (hf : env.dlFetch = DlFetch.ok header chunks false)
    (_he : 0 < env.dlElapsedMs) :
    (runTestFinal s0 env).downloadSpeed =
      some (jsRound (((chunks.sum : ℚ) * 8) / (env.dlElapsedMs / 1000) / 1048576)) ∧
    jsRound (((10000000 : ℚ) * 8) / ((4000 : ℚ) / 1000) / 1048576) = 19 := by
  constructor
  · simp only [runTestFinal_eq, hf]
    show some (jsRound (((dlReceived 0 chunks : ℚ) * 8) /
      (env.dlElapsedMs / 1000) / (1024 * 1024))) = _
    rw [dlReceived_eq chunks 0]
    norm_num
  · norm_num [jsRound]

/-- Witness for C5: two chunks totalling 10,000,000 bytes in 4000 ms give
a stored download speed of 19 Mbps. -/
theorem C5_download_throughput_witness :
    0 < envDlOk.dlElapsedMs ∧
    (runTestFinal initialSession envDlOk).downloadSpeed =
      some (jsRound (((([4000000, 6000000] : List ℕ).sum : ℚ) * 8) /
        (envDlOk.dlElapsedMs / 1000) / 1048576)) ∧
    (runTestFinal initialSession envDlOk).downloadSpeed = some 19 := by
  have h := C5_download_throughput initialSession envDlOk CLHeader.absent
    [4000000, 6000000] rfl (by norm_num [envDlOk])
  refine ⟨by norm_num [envDlOk], h.1, ?_⟩
  rw [h.1]
  norm_num [envDlOk, jsRound]

/-- C6: for every start state and every combination of probe outcomes —
all latency probes failing, the download failing initially or mid-stream,
any random draws — `runTest` terminates (it is a total function of its
environment here) with the session phase equal to complete. -/
theorem C6_run_always_completes (s0 : Session) (env : TestEnv) :
    (runTestFinal s0 env).phase = Phase.complete := by
  rw [runTestFinal_eq]

/-- C7 (amended): during a real download, the progress written after each
chunk is `min(100, receivedBytes / contentLength * 100)` whenever the
coerced content length is a nonzero number; the 5,000,000-byte default
applies when the header is absent or empty, and a numeric header supplies
its own value.  (A present non-numeric header instead coerces to NaN and
every progress update becomes NaN; see the counterexample.) -/
theorem C7_download_progress (q : ℚ) (hq : q ≠ 0) :
    (∀ (chunks : List ℕ) (acc : ℕ),
      dlChunkActions (JsNum.num q) acc chunks = specProgressUpdates q acc chunks) ∧
    contentLengthOf CLHeader.absent = JsNum.num 5000000 ∧
    contentLengthOf CLHeader.emptyStr = JsNum.num 5000000 ∧
    (∀ p : ℚ, contentLengthOf (CLHeader.numStr p) = JsNum.num p) := by
  refine ⟨?_, rfl, rfl, fun p => rfl⟩
  intro chunks
  induction chunks with
  | nil => intro acc; rfl
  | cons c cs ih =>
    intro acc
    rw [dlChunkActions, specProgressUpdates, ih]
    simp [jsProgress, hq]

/-- Witness for C7 with the default content length. -/
theorem C7_download_progress_witness :
    (5000000 : ℚ) ≠ 0 ∧
    dlChunkActions (JsNum.num 5000000) 0 [1000000, 2000000] =
      specProgressUpdates 5000000 0 [1000000, 2000000] :=
  ⟨by norm_num, (C7_download_progress 5000000 (by norm_num)).1 [1000000, 2000000] 0⟩

/-- Counterexample to C7 as stated: with a present non-numeric
Content-Length header, the content length coerces to NaN (not to the
claimed 5,000,000 default) and the progress written after the first chunk
is NaN rather than `min(100, 1000000 / 5000000 * 100)`. -/
theorem C7_nonnumeric_counterexample :
    (runDownloadTest (DlFetch.ok CLHeader.nonNumStr [1000000] false) 4000 0).2 =
      [Action.setProgress JsNum.nan] ∧
    Action.setProgress JsNum.nan ≠
      Action.setProgress (JsNum.num (min 100 ((1000000 : ℚ) / 5000000 * 100))) := by
  exact ⟨rfl, by intro h; cases h⟩

/-- C8 (amended): along a run started from the initial session, each
result field is null at every state strictly before its phase and non-null
at every state strictly after its phase — unconditionally for
`downloadMbps` and `uploadMbps`, and for `pingMs`/`jitterMs` under the
hypothesis that at least one latency sample was collected (with zero
samples they stay null for the whole run; see the counterexample). -/
theorem C8_result_nullability (env : TestEnv) :
    ∀ s ∈ runTestTrace initialSession env,
      resultsOK (0 < (pingSamples env.pingOutcomes).length) s := by
  intro s hs
  rw [runTestTrace, runTestActions_decomp] at hs
  by_cases hp0 : 0 < (pingSamples env.pingOutcomes).length
  · simp only [runPingTestActions, if_pos hp0] at hs
    simp only [q1Acts, q3Acts, q4Acts, List.cons_append, List.nil_append,
      List.append_assoc] at hs
    simp only [statesAfter_cons] at hs
    rw [statesAfter_append, applyAll_dlActs] at hs
    simp only [statesAfter_cons] at hs
    rw [statesAfter_append, applyAll_ticks] at hs
    simp only [statesAfter_cons, statesAfter_nil] at hs
    simp only [List.mem_cons, List.mem_append, List.not_mem_nil, or_false] at hs
    rcases hs with rfl | hs
    · simp [resultsOK, applyAction, initialSession, phaseIdx]
    rcases hs with rfl | hs
    · simp [resultsOK, applyAction, initialSession, phaseIdx]
    rcases hs with rfl | hs
    · simp [resultsOK, applyAction, initialSession, phaseIdx]
    rcases hs with rfl | hs
    · simp [resultsOK, applyAction, initialSession, phaseIdx]
    rcases hs with rfl | hs
    · simp [resultsOK, applyAction, initialSession, phaseIdx]
    rcases hs with rfl | hs
    · simp [resultsOK, applyAction, initialSession, phaseIdx]
    rcases hs with rfl | hs
    · simp [resultsOK, applyAction, initialSession, phaseIdx]
    rcases hs with rfl | hs
    · simp [resultsOK, applyAction, initialSession, phaseIdx]
    rcases hs with rfl | hs
    · simp [resultsOK, applyAction, initialSession, phaseIdx]
    rcases hs with rfl | hs
    · simp [resultsOK, applyAction, initialSession, phaseIdx]
    rcases hs with rfl | hs
    · simp [resultsOK, applyAction, initialSession, phaseIdx]
    rcases hs with rfl | hs
    · simp [resultsOK, applyAction, initialSession, phaseIdx]
    rcases hs with rfl | hs
    · simp [resultsOK, applyAction, initialSession, phaseIdx]
    rcases hs with hm | hs
    · have hv := resultsView_statesAfter _
        (rQuiet_dlActs env.dlFetch env.dlElapsedMs env.dlRandom) _ s hm
      exact resultsOK_of_view _ s _ hv
        (by simp [resultsOK, resultsView, applyAction, initialSession, phaseIdx])
    rcases hs with rfl | hs
    · simp [resultsOK, applyAction, initialSession, phaseIdx]
    rcases hs with rfl | hs
    · simp [resultsOK, applyAction, initialSession, phaseIdx]
    rcases hs with rfl | hs
    · simp [resultsOK, applyAction, initialSession, phaseIdx]
    rcases hs with hm | hs
    · have hv := resultsView_statesAfter _ rQuiet_ticks _ s hm
      exact resultsOK_of_view _ s _ hv
        (by simp [resultsOK, resultsView, applyAction, initialSession, phaseIdx])
    rcases hs with rfl | hs
    · simp [resultsOK, applyAction, initialSession, phaseIdx]
    rcases hs with rfl | hs
    · simp [resultsOK, applyAction, initialSession, phaseIdx]
    subst hs
    simp [resultsOK, applyAction, initialSession, phaseIdx]
  · simp only [runPingTestActions, if_neg hp0] at hs
    simp only [q1Acts, q3Acts, q4Acts, List.cons_append, List.nil_append,
      List.append_assoc] at hs
    simp only [statesAfter_cons] at hs
    rw [statesAfter_append, applyAll_dlActs] at hs
    simp only [statesAfter_cons] at hs
    rw [statesAfter_append, applyAll_ticks] at hs
    simp only [statesAfter_cons, statesAfter_nil] at hs
    simp only [List.mem_cons, List.mem_append, List.not_mem_nil, or_false] at hs
    rcases hs with rfl | hs
    · simp [resultsOK, applyAction, initialSession, phaseIdx, hp0]
    rcases hs with rfl | hs
    · simp [resultsOK, applyAction, initialSession, phaseIdx, hp0]
    rcases hs with rfl | hs
    · simp [resultsOK, applyAction, initialSession, phaseIdx, hp0]
    rcases hs with rfl | hs
    · simp [resultsOK, applyAction, initialSession, phaseIdx, hp0]
    rcases hs with rfl | hs
    · simp [resultsOK, applyAction, initialSession, phaseIdx, hp0]
    rcases hs with rfl | hs
    · simp [resultsOK, applyAction, initialSession, phaseIdx, hp0]
    rcases hs with rfl | hs
    · simp [resultsOK, applyAction, initialSession, phaseIdx, hp0]
    rcases hs with rfl | hs
    · simp [resultsOK, applyAction, initialSession, phaseIdx, hp0]
    rcases hs with rfl | hs
    · simp [resultsOK, applyAction, initialSession, phaseIdx, hp0]
    rcases hs with rfl | hs
    · simp [resultsOK, applyAction, initialSession, phaseIdx, hp0]
    rcases hs with rfl | hs
    · simp [resultsOK, applyAction, initialSession, phaseIdx, hp0]
    rcases hs with hm | hs
    · have hv := resultsView_statesAfter _
        (rQuiet_dlActs env.dlFetch env.dlElapsedMs env.dlRandom) _ s hm
      exact resultsOK_of_view _ s _ hv
        (by simp [resultsOK, resultsView, applyAction, initialSession, phaseIdx, hp0])
    rcases hs with rfl | hs
    · simp [resultsOK, applyAction, initialSession, phaseIdx, hp0]
    rcases hs with rfl | hs
    · simp [resultsOK, applyAction, initialSession, phaseIdx, hp0]
    rcases hs with rfl | hs
    · simp [resultsOK, applyAction, initialSession, phaseIdx, hp0]
    rcases hs with hm | hs
    · have hv := resultsView_statesAfter _ rQuiet_ticks _ s hm
      exact resultsOK_of_view _ s _ hv
        (by simp [resultsOK, resultsView, applyAction, initialSession, phaseIdx, hp0])
    rcases hs with rfl | hs
    · simp [resultsOK, applyAction, initialSession, phaseIdx, hp0]
    rcases hs with rfl | hs
    · simp [resultsOK, applyAction, initialSession, phaseIdx, hp0]
    subst hs
    simp [resultsOK, applyAction, initialSession, phaseIdx, hp0]

/-- Witness for C8 at the first state of a concrete trace. -/
theorem C8_result_nullability_witness :
    initialSession ∈ runTestTrace initialSession envAllFail ∧
    resultsOK (0 < (pingSamples envAllFail.pingOutcomes).length) initialSession := by
  have hmem : initialSession ∈ runTestTrace initialSession envAllFail := by
    rw [runTestTrace]
    exact List.mem_cons_self _ _
  exact ⟨hmem, C8_result_nullability envAllFail initialSession hmem⟩

/-- Counterexample to C8 as stated: in a run whose five latency probes all
fail, the run completes (so the ping phase has run) with `pingMs` and
`jitterMs` still null, contradicting "non-null at all points after its
phase has run" for those fields. -/
theorem C8_all_probes_fail_counterexample :
    (runTestFinal initialSession envAllFail).phase = Phase.complete ∧
    (runTestFinal initialSession envAllFail).ping = none ∧
    (runTestFinal initialSession envAllFail).jitter = none := by
  refine ⟨by rw [runTestFinal_eq], ?_, ?_⟩ <;>
    · simp only [runTestFinal_eq, pingResultOf, jitterResultOf]
      rw [pingSamples_allFail]
      simp

/-- C9 (amended): the network-info lookup leaves `networkInfo` null on a
failed fetch or unparsable body, on `success` false, and also whenever the
`connection` object is absent (the code then throws reading
`connection.isp` and the catch stores nothing — the claimed top-level
fallback never applies in that case); when `connection` is present and
`success` is true it stores the ip and the first truthy value among
`connection.isp`, the top-level `isp`, and the literal "Unknown ISP". -/
theorem C9_network_info (d : IpResponse) :
    fetchNetworkInfo NetFetch.fail = none ∧
    (d.success = false → fetchNetworkInfo (NetFetch.ok d) = none) ∧
    (d.connection = none → fetchNetworkInfo (NetFetch.ok d) = none) ∧
    (∀ c : IpConnection, d.success = true → d.connection = some c →
      fetchNetworkInfo (NetFetch.ok d) =
        some { ip := d.ip, isp := jsOrStr c.isp (jsOrStr d.isp "Unknown ISP") }) := by
  refine ⟨rfl, ?_, ?_, ?_⟩
  · intro h
    simp [fetchNetworkInfo, h]
  · intro h
    simp only [fetchNetworkInfo]
    rw [h]
    split <;> rfl
  · intro c hs hc
    simp [fetchNetworkInfo, hs, hc]

/-- Witness for C9 on a fully populated response. -/
theorem C9_network_info_witness :
    ipExample.success = true ∧
    fetchNetworkInfo (NetFetch.ok ipExample) =
      some { ip := "203.0.113.5", isp := "ConnISP" } := by
  have h := (C9_network_info ipExample).2.2.2 { isp := some "ConnISP" } rfl rfl
  refine ⟨rfl, h.trans ?_⟩
  simp [ipExample, jsOrStr]

/-- Counterexample to C9 as stated: a successful, well-formed response
(per the documented shape, `connection` is optional) that carries a
top-level `isp` but no `connection` object stores nothing at all — the
claimed fallback chain would have stored the top-level ISP. -/
theorem C9_missing_connection_counterexample :
    ipNoConnection.success = true ∧
    fetchNetworkInfo (NetFetch.ok ipNoConnection) = none ∧
    fetchNetworkInfo (NetFetch.ok ipNoConnection) ≠
      some { ip := "1.2.3.4", isp := "Acme" } := by
  refine ⟨rfl, rfl, ?_⟩
  intro h
  cases h

/-- C10: whenever a run is started from a session in phase idle or
complete (the only phases outside a run), every state of the run whose
phase is ping, download or upload has `isTesting` true; the flag is set
true by the first update of `runTest` and reset only by the final update,
after the phase has been set to complete. -/
theorem C10_isTesting (s0 : Session) (env : TestEnv)
    (h : s0.phase = Phase.idle ∨ s0.phase = Phase.complete) :
    (∀ s ∈ runTestTrace s0 env,
      s.phase = Phase.ping ∨ s.phase = Phase.download ∨ s.phase = Phase.upload →
        s.isTesting = true) ∧
    (runTestFinal s0 env).isTesting = false ∧
    (runTestFinal s0 env).phase = Phase.complete := by
  refine ⟨?_, by rw [runTestFinal_eq], by rw [runTestFinal_eq]⟩
  have key : ∀ x : Phase × Bool, x ∈ (runTestTrace s0 env).map phaseTesting →
      x.1 = Phase.ping ∨ x.1 = Phase.download ∨ x.1 = Phase.upload → x.2 = true := by
    rw [runTestTrace_pairs]
    intro x hx hx1
    rcases List.mem_cons.mp hx with rfl | hx
    · rcases h with h0 | h0 <;> rw [h0] at hx1 <;>
        rcases hx1 with h2 | h2 | h2 <;> simp at h2
    rcases List.mem_cons.mp hx with rfl | hx
    · rfl
    rcases List.mem_append.mp hx with hx | hx
    · rw [List.eq_of_mem_replicate hx]
    rcases List.mem_cons.mp hx with rfl | hx
    · rfl
    rcases List.mem_append.mp hx with hx | hx
    · rw [List.eq_of_mem_replicate hx]
    rcases List.mem_cons.mp hx with rfl | hx
    · rfl
    rcases List.mem_append.mp hx with hx | hx
    · rw [List.eq_of_mem_replicate hx]
    rcases List.mem_cons.mp hx with rfl | hx
    · rfl
    rcases List.mem_append.mp hx with hx | hx
    · rw [List.eq_of_mem_replicate hx]
    rcases List.mem_cons.mp hx with rfl | hx
    · rfl
    rcases List.mem_cons.mp hx with rfl | hx
    · rcases hx1 with h2 | h2 | h2 <;> simp at h2
    cases hx
  intro s hs hph
  exact key (phaseTesting s) (List.mem_map_of_mem phaseTesting hs) hph

/-- Witness for C10 at the initial session. -/
theorem C10_isTesting_witness :
    (initialSession.phase = Phase.idle ∨ initialSession.phase = Phase.complete) ∧
    ((∀ s ∈ runTestTrace initialSession envAllFail,
        s.phase = Phase.ping ∨ s.phase = Phase.download ∨ s.phase = Phase.upload →
          s.isTesting = true) ∧
      (runTestFinal initialSession envAllFail).isTesting = false ∧
      (runTestFinal initialSession envAllFail).phase = Phase.complete) :=
  ⟨Or.inl rfl, C10_isTesting initialSession envAllFail (Or.inl rfl)⟩

end SpeedTest
